import Mathlib

/-!
Verification of the qtnetworkng stream-server core (`src/socket_server.cpp`)
and `randomBytes` (`src/random.cpp`).

The server code is control flow over overridable hooks.  We embed it as
trace-producing functions: each framework routine is a Lean function from the
behaviour of its hooks to the list of observable actions it performs, together
with the exception (if any) that escapes it.  Connections are identified by
natural numbers.
-/

/-- Observable actions performed by the server framework.  `closeReq c` is a
call of `closeRequest` on connection `c` (whose default implementation calls
`request->close()`), `serverClose` closes the listening socket, and the
`setStarted`/`clearStarted`/`setStopped`/`clearStopped` actions are the
operations on the two `Event` members. -/
inductive Act
  | serverBind
  | serverActivate
  | serverClose
  | acceptCall
  | setStarted
  | clearStarted
  | setStopped
  | clearStopped
  | verifyReq (c : Nat)
  | spawnTask (c : Nat)
  | spawnServe
  | shutdownReq (c : Nat)
  | closeReq (c : Nat)
  | handleErr (c : Nat)
  deriving DecidableEq, Repr

/-- Exceptions that a `processRequest` override may raise: the cooperative
cancellation signal `CoroutineExitException`, or any other failure. -/
inductive Exc
  | coroutineExit
  | other
  deriving DecidableEq, Repr

/-- Behaviour of the overridable hooks of `BaseStreamServer`.
`processRequest c` yields the trace of actions the override performs on
connection `c` (e.g. the `closeReq c` it is documented to do) and the
exception it raises, if any.  `serviceActions n` is the value the hook
returns on the `n`-th loop iteration. -/
structure Hooks where
  processRequest : Nat → List Act × Option Exc
  verifyRequest : Nat → Bool
  serviceActions : Nat → Bool

/-- Embedding of `BaseStreamServerPrivate::handleRequest`
(socket_server.cpp lines 149-162): call `processRequest` inside a
try/catch; on `CoroutineExitException` do `shutdownRequest` then
`closeRequest`; on any other exception do `handleError`, `shutdownRequest`,
`closeRequest`.  Neither catch block rethrows, so the escaping exception of
the whole routine is `none` in every case. -/
def handleRequest (H : Hooks) (c : Nat) : List Act × Option Exc :=
  match H.processRequest c with
  | (tr, none) => (tr, none)
  | (tr, some Exc.coroutineExit) =>
      (tr ++ [Act.shutdownReq c, Act.closeReq c], none)
  | (tr, some Exc.other) =>
      (tr ++ [Act.handleErr c, Act.shutdownReq c, Act.closeReq c], none)

/-- Embedding of the `while (true)` loop of
`BaseStreamServerPrivate::serveForever` (socket_server.cpp lines 126-142).
`accepts` is the sequence of results of the successive `getRequest()` calls
(`none` = accept failed / socket closed); `n` counts iterations so that the
`serviceActions` hook may vary over time.  An admitted connection spawns a
task (`spawnTask c`; the task body `handleRequest` is accounted separately
since it runs concurrently); a rejected one is shut down and closed inline. -/
def dispatchLoop (H : Hooks) : Nat → List (Option Nat) → List Act
  | _, [] => []
  | _, none :: _ => [Act.acceptCall]
  | n, some c :: rest =>
      [Act.acceptCall, Act.verifyReq c] ++
      (if H.verifyRequest c then [Act.spawnTask c]
       else [Act.shutdownReq c, Act.closeReq c]) ++
      (if H.serviceActions n then dispatchLoop H (n + 1) rest else [])

/-- Embedding of `BaseStreamServerPrivate::serveForever`
(socket_server.cpp lines 121-146): set `started`, clear `stopped`, run the
dispatch loop, then `serverClose`, clear `started`, set `stopped`. -/
def serveForeverLoop (H : Hooks) (accepts : List (Option Nat)) : List Act :=
  [Act.setStarted, Act.clearStopped] ++ dispatchLoop H 0 accepts ++
  [Act.serverClose, Act.clearStarted, Act.setStopped]

/-- Results of the transport collaborator: whether `bind` and `listen`
succeed. -/
structure Env where
  bindOk : Bool
  listenOk : Bool

/-- Observable server state: the two `Event` flags and whether a task named
"serve" is registered in the `CoroutineGroup`. -/
structure ServerState where
  startedSet : Bool
  stoppedSet : Bool
  hasServe : Bool
  deriving DecidableEq, Repr

/-- State established by the `BaseStreamServer` constructor
(socket_server.cpp lines 36-49): `started->clear(); stopped->set();` and no
task spawned yet. -/
def initState : ServerState :=
  { startedSet := false, stoppedSet := true, hasServe := false }

/-- Embedding of `BaseStreamServer::start` (socket_server.cpp lines
181-198): if `started` is set or a task named "serve" exists, return `true`
immediately; otherwise bind (close and return `false` on failure), listen
(close and return `false` on failure), then spawn the "serve" task and
return `true`.  Returns the result, the new state and the action trace. -/
def start (E : Env) (s : ServerState) : Bool × ServerState × List Act :=
  if s.startedSet || s.hasServe then (true, s, [])
  else if !E.bindOk then (false, s, [Act.serverBind, Act.serverClose])
  else if !E.listenOk then
    (false, s, [Act.serverBind, Act.serverActivate, Act.serverClose])
  else
    (true, { s with hasServe := true },
     [Act.serverBind, Act.serverActivate, Act.spawnServe])

/-- Embedding of the blocking `BaseStreamServer::serveForever`
(socket_server.cpp lines 165-178): bind (close and return `false` on
failure), listen (close and return `false` on failure), then run the accept
loop on the calling task and return `true`. -/
def serveForeverBlocking (E : Env) (H : Hooks) (accepts : List (Option Nat)) :
    Bool × List Act :=
  if !E.bindOk then (false, [Act.serverBind, Act.serverClose])
  else if !E.listenOk then
    (false, [Act.serverBind, Act.serverActivate, Act.serverClose])
  else (true, [Act.serverBind, Act.serverActivate] ++ serveForeverLoop H accepts)

/-- Effect of one action on the observable server state (only the `Event`
operations change it). -/
def applyAct (s : ServerState) : Act → ServerState
  | Act.setStarted => { s with startedSet := true }
  | Act.clearStarted => { s with startedSet := false }
  | Act.setStopped => { s with stoppedSet := true }
  | Act.clearStopped => { s with stoppedSet := false }
  | _ => s

/-- State reached after performing a trace of actions. -/
def applyTrace (s : ServerState) (tr : List Act) : ServerState :=
  tr.foldl applyAct s

/-- Embedding of `BaseSslStreamServer::getRequest` (socket_server.cpp lines
312-327): loop accepting raw connections (`raws` is the sequence of raw
`accept()` results); on accept failure return `none`; on accept success
attempt the TLS handshake (`hshake c`), and on handshake failure `continue`
the loop, otherwise return the connection. -/
def sslGetRequest (hshake : Nat → Bool) : List (Option Nat) → Option Nat
  | [] => none
  | none :: _ => none
  | some c :: rest => if hshake c then some c else sslGetRequest hshake rest

/-- Phases of `BaseRequestHandler`. -/
inductive HandlerAct
  | setupAct
  | handleAct
  | finishAct
  deriving DecidableEq, Repr

/-- Outcome of one invocation of a handler phase. -/
inductive HOutcome
  | ok
  | fail
  deriving DecidableEq, Repr

/-- Behaviour of the overridable phases of a `BaseRequestHandler`:
`finishOut1` is the outcome of the first `finish()` invocation and
`finishOut2` that of a second invocation, should one occur. -/
structure HandlerHooks where
  setupOut : HOutcome
  handleOut : HOutcome
  finishOut1 : HOutcome
  finishOut2 : HOutcome

/-- Embedding of `BaseRequestHandler::run` (socket_server.cpp lines
351-360): `setup(); try { handle(); finish(); } catch (...) { finish(); }`.
Returns the trace of phase invocations and whether an exception escapes
`run()`.  `setup()` is outside the try block, so its failure escapes before
`handle()` runs; a failure of `handle()` is caught and `finish()` runs in
the catch block; if the `finish()` inside the try block fails, the catch
block invokes `finish()` a second time. -/
def handlerRun (hk : HandlerHooks) : List HandlerAct × Bool :=
  match hk.setupOut with
  | HOutcome.fail => ([HandlerAct.setupAct], true)
  | HOutcome.ok =>
    match hk.handleOut with
    | HOutcome.fail =>
        ([HandlerAct.setupAct, HandlerAct.handleAct, HandlerAct.finishAct],
         hk.finishOut1 == HOutcome.fail)
    | HOutcome.ok =>
      match hk.finishOut1 with
      | HOutcome.ok =>
          ([HandlerAct.setupAct, HandlerAct.handleAct, HandlerAct.finishAct],
           false)
      | HOutcome.fail =>
          ([HandlerAct.setupAct, HandlerAct.handleAct, HandlerAct.finishAct,
            HandlerAct.finishAct],
           hk.finishOut2 == HOutcome.fail)

/-- Model of writing `src` into a buffer `buf` starting at offset 0 (the
effect of `RAND_bytes(b.data(), i)` on the `i`-byte buffer): the buffer
keeps its length. -/
def writeInto (buf src : List Nat) : List Nat :=
  src.take buf.length ++ buf.drop src.length

/-- Embedding of `randomBytes` (random.cpp lines 7-14): `b.resize(i)`
creates an `i`-byte buffer, `RAND_bytes` writes `w` into it, and its return
value `fl` is ignored; the buffer is returned unconditionally.  The return
type has no error channel, so a generator failure is never surfaced. -/
def randomBytes (fl : Bool) (w : List Nat) (i : Nat) : List Nat :=
  writeInto (List.replicate i 0) w

/-- Occurrence count of an action in a trace. -/
def countA (a : Act) : List Act → Nat
  | [] => 0
  | b :: tr => (if b = a then 1 else 0) + countA a tr

/-- The default hooks of `BaseStreamServer` (socket_server.cpp lines
227-242): `processRequest` does nothing and raises nothing, `verifyRequest`
returns `true`, `serviceActions` returns `true`. -/
def defaultHooks : Hooks :=
  { processRequest := fun _ => ([], none)
  , verifyRequest := fun _ => true
  , serviceActions := fun _ => true }

/-- Hooks whose `processRequest` raises the cooperative cancellation
signal. -/
def cancelHooks : Hooks :=
  { defaultHooks with processRequest := fun _ => ([], some Exc.coroutineExit) }

/-- Hooks whose `processRequest` raises an ordinary failure. -/
def errHooks : Hooks :=
  { defaultHooks with processRequest := fun _ => ([], some Exc.other) }

/-- Hooks whose `processRequest` conforms to its documented contract
("// close request."): it closes the connection exactly once and returns
normally. -/
def conformHooks : Hooks :=
  { defaultHooks with processRequest := fun c => ([Act.closeReq c], none) }

/-! Basic lemmas about traces -/

lemma countA_append (a : Act) (l1 l2 : List Act) :
    countA a (l1 ++ l2) = countA a l1 + countA a l2 := by
  induction l1 with
  | nil => simp [countA]
  | cons b tl ih => simp [countA, ih]; omega

lemma dispatchLoop_processRequest_irrelevant (H : Hooks)
    (pr : Nat → List Act × Option Exc) :
    ∀ (accepts : List (Option Nat)) (n : Nat),
      dispatchLoop { H with processRequest := pr } n accepts =
        dispatchLoop H n accepts := by
  intro accepts
  induction accepts with
  | nil => intro n; rfl
  | cons o rest ih =>
      intro n
      cases o with
      | none => rfl
      | some c => simp [dispatchLoop, ih]

/-! Claim theorems -/

/-- Claim C10: for every non-negative `i`, `randomBytes` returns a byte
array of length exactly `i`, and the result is the same whether the
underlying generator reports success (`fl = true`) or failure
(`fl = false`): the return value of `RAND_bytes` is ignored. -/
theorem randomBytes_length_flag_ignored (fl : Bool) (w : List Nat) (i : Nat) :
    (randomBytes fl w i).length = i ∧ randomBytes fl w i = randomBytes (!fl) w i := by
  constructor
  · simp [randomBytes, writeInto]
    omega
  · rfl

/-- Claim C9: `BaseRequestHandler::run()` invokes `setup()`, then
`handle()`, then `finish()`; when `handle()` fails, `finish()` still
executes and the failure does not escape `run()` unless `finish()` itself
fails. -/
theorem handlerRun_finish_guaranteed (hk : HandlerHooks)
    (hs : hk.setupOut = HOutcome.ok) :
    ((handlerRun hk).1 =
        [HandlerAct.setupAct, HandlerAct.handleAct, HandlerAct.finishAct] ∨
     (handlerRun hk).1 =
        [HandlerAct.setupAct, HandlerAct.handleAct, HandlerAct.finishAct,
         HandlerAct.finishAct])
    ∧ (hk.handleOut = HOutcome.fail →
        handlerRun hk =
          ([HandlerAct.setupAct, HandlerAct.handleAct, HandlerAct.finishAct],
           hk.finishOut1 == HOutcome.fail)) := by
  obtain ⟨s, h, f1, f2⟩ := hk
  cases s <;> cases h <;> cases f1 <;> cases f2 <;> simp_all [handlerRun]

/-- Witness for C9: a handler whose `handle()` fails and whose `finish()`
succeeds: `finish()` runs and nothing escapes `run()`. -/
theorem handlerRun_finish_guaranteed_witness :
    handlerRun ⟨HOutcome.ok, HOutcome.fail, HOutcome.ok, HOutcome.ok⟩ =
      ([HandlerAct.setupAct, HandlerAct.handleAct, HandlerAct.finishAct], false) :=
  (handlerRun_finish_guaranteed ⟨HOutcome.ok, HOutcome.fail, HOutcome.ok, HOutcome.ok⟩
    rfl).2 rfl

/-- Counterexample to claim C1: when `processRequest` raises
`CoroutineExitException`, `handleRequest` performs `shutdownRequest` then
`closeRequest` but the catch block does not rethrow, so no exception
escapes the task: the cancellation is swallowed, not re-propagated. -/
theorem handleRequest_cancel_swallowed :
    (handleRequest cancelHooks 0).1 = [Act.shutdownReq 0, Act.closeReq 0]
    ∧ (handleRequest cancelHooks 0).2 = none
    ∧ ¬ (handleRequest cancelHooks 0).2 = some Exc.coroutineExit := by
  refine ⟨rfl, rfl, ?_⟩
  intro h
  simp [handleRequest, cancelHooks, defaultHooks] at h

/-- Claim C1 (amended): when `processRequest` raises the cancellation
signal, `handleRequest` performs `shutdownRequest` then `closeRequest` on
the connection, and the cancellation does not propagate out of the task:
the catch block swallows it. -/
theorem handleRequest_cancel_cleanup (H : Hooks) (c : Nat) (tr : List Act)
    (hpr : H.processRequest c = (tr, some Exc.coroutineExit)) :
    handleRequest H c = (tr ++ [Act.shutdownReq c, Act.closeReq c], none) := by
  simp [handleRequest, hpr]

/-- Witness for the amended C1 at a concrete connection. -/
theorem handleRequest_cancel_cleanup_witness :
    handleRequest cancelHooks 5 = ([] ++ [Act.shutdownReq 5, Act.closeReq 5], none) :=
  handleRequest_cancel_cleanup cancelHooks 5 [] rfl

/-- Claim C3: when `processRequest` raises any failure other than the
cancellation signal, `handleRequest` calls `handleError`, then
`shutdownRequest`, then `closeRequest`, in that order, and no exception
escapes the connection task; moreover the dispatch loop trace does not
depend on the `processRequest` behaviour at all, so the accept loop and
sibling tasks are unaffected. -/
theorem handleRequest_error_contained (H : Hooks) (c : Nat) (tr : List Act)
    (hpr : H.processRequest c = (tr, some Exc.other)) :
    handleRequest H c =
      (tr ++ [Act.handleErr c, Act.shutdownReq c, Act.closeReq c], none)
    ∧ ∀ (accepts : List (Option Nat)) (n : Nat),
        dispatchLoop { H with processRequest := fun _ => ([], none) } n accepts =
          dispatchLoop H n accepts := by
  refine ⟨by simp [handleRequest, hpr], ?_⟩
  intro accepts n
  exact dispatchLoop_processRequest_irrelevant H _ accepts n

/-- Witness for C3 at a concrete connection. -/
theorem handleRequest_error_contained_witness :
    handleRequest errHooks 0 =
      ([] ++ [Act.handleErr 0, Act.shutdownReq 0, Act.closeReq 0], none) :=
  (handleRequest_error_contained errHooks 0 [] rfl).1

/-- Claim C4: calling `start()` while the `started` event is set or while a
task named "serve" is registered returns `true`, performs no bind, listen
or spawn (empty trace), and leaves the state — in particular the "serve"
registration — unchanged. -/
theorem start_idempotent (E : Env) (s : ServerState)
    (h : s.startedSet = true ∨ s.hasServe = true) :
    start E s = (true, s, []) := by
  rcases h with h | h <;> simp [start, h]

/-- Witness for C4: a running server (started set, "serve" registered). -/
theorem start_idempotent_witness :
    start ⟨true, true⟩ ⟨true, false, true⟩ = (true, ⟨true, false, true⟩, []) :=
  start_idempotent ⟨true, true⟩ ⟨true, false, true⟩ (Or.inl rfl)

/-- Claim C5: if `bind()` or `listen()` fails, `start()` and the blocking
`serveForever()` return `false`, the last action before returning is the
close of the listening socket, no accept-loop task is spawned and no accept
ever happens, and the state remains never-started (started clear, stopped
set). -/
theorem bind_listen_failure_shortcircuit (E : Env) (H : Hooks)
    (accepts : List (Option Nat))
    (hfail : E.bindOk = false ∨ E.listenOk = false) :
    ((start E initState).1 = false
     ∧ (start E initState).2.1 = initState
     ∧ (start E initState).2.2.getLast? = some Act.serverClose
     ∧ Act.spawnServe ∉ (start E initState).2.2
     ∧ Act.acceptCall ∉ (start E initState).2.2)
    ∧ ((serveForeverBlocking E H accepts).1 = false
     ∧ (serveForeverBlocking E H accepts).2.getLast? = some Act.serverClose
     ∧ Act.spawnServe ∉ (serveForeverBlocking E H accepts).2
     ∧ Act.acceptCall ∉ (serveForeverBlocking E H accepts).2
     ∧ applyTrace initState (serveForeverBlocking E H accepts).2 = initState) := by
  rcases hfail with h | h
  · simp [start, serveForeverBlocking, initState, h, applyTrace, applyAct]
  · cases hb : E.bindOk
    · simp [start, serveForeverBlocking, initState, h, hb, applyTrace, applyAct]
    · simp [start, serveForeverBlocking, initState, h, hb, applyTrace, applyAct]

/-- Witness for C5: bind fails. -/
theorem bind_listen_failure_shortcircuit_witness :
    (start ⟨false, true⟩ initState).1 = false :=
  (bind_listen_failure_shortcircuit ⟨false, true⟩ defaultHooks [] (Or.inl rfl)).1.1

/-- Every action emitted by the dispatch loop is an accept, a verification,
a spawn, or an inline shutdown/close of a rejected connection: the loop
never touches the `started`/`stopped` events or the listening socket. -/
lemma dispatchLoop_actions (H : Hooks) :
    ∀ (accepts : List (Option Nat)) (n : Nat) (a : Act),
      a ∈ dispatchLoop H n accepts →
      a = Act.acceptCall ∨ ∃ c, a = Act.verifyReq c ∨ a = Act.spawnTask c
        ∨ a = Act.shutdownReq c ∨ a = Act.closeReq c := by
  intro accepts
  induction accepts with
  | nil => intro n a ha; simp [dispatchLoop] at ha
  | cons o rest ih =>
    intro n a ha
    cases o with
    | none =>
      simp [dispatchLoop] at ha
      subst ha
      exact Or.inl rfl
    | some c =>
      simp only [dispatchLoop, List.mem_append, List.mem_cons,
        List.not_mem_nil, or_false] at ha
      rcases ha with ((rfl | rfl) | hx) | hy
      · exact Or.inl rfl
      · exact Or.inr ⟨c, Or.inl rfl⟩
      · by_cases hv : H.verifyRequest c
        · simp [hv] at hx
          subst hx
          exact Or.inr ⟨c, Or.inr (Or.inl rfl)⟩
        · simp [hv] at hx
          rcases hx with rfl | rfl
          · exact Or.inr ⟨c, Or.inr (Or.inr (Or.inl rfl))⟩
          · exact Or.inr ⟨c, Or.inr (Or.inr (Or.inr rfl))⟩
      · by_cases hsv : H.serviceActions n
        · simp [hsv] at hy
          exact ih (n + 1) a hy
        · simp [hsv] at hy

/-- Claim C6: on every execution of the accept loop, `started` is set and
`stopped` is cleared before the first accept, and on loop exit the
listening socket is closed first, then `started` is cleared, then `stopped`
is set, in that order; the loop body performs no other event or
listening-socket action. -/
theorem serveForeverLoop_event_ordering (H : Hooks) (accepts : List (Option Nat)) :
    ∃ body, serveForeverLoop H accepts =
        [Act.setStarted, Act.clearStopped] ++ body ++
        [Act.serverClose, Act.clearStarted, Act.setStopped]
      ∧ ∀ a ∈ body, a = Act.acceptCall ∨ ∃ c, a = Act.verifyReq c ∨ a = Act.spawnTask c
          ∨ a = Act.shutdownReq c ∨ a = Act.closeReq c :=
  ⟨dispatchLoop H 0 accepts, rfl, fun a ha => dispatchLoop_actions H accepts 0 a ha⟩

/-- Connections that fail the handshake are skipped by the secure accept
loop. -/
lemma sslGetRequest_skip (hshake : Nat → Bool) :
    ∀ (pre : List (Option Nat)), (none : Option Nat) ∉ pre →
      (∀ d, some d ∈ pre → hshake d = false) →
      ∀ (rest : List (Option Nat)),
        sslGetRequest hshake (pre ++ rest) = sslGetRequest hshake rest := by
  intro pre
  induction pre with
  | nil => intro _ _ rest; rfl
  | cons o tl ih =>
    intro h1 h2 rest
    cases o with
    | none => exact absurd (List.mem_cons_self _ _) h1
    | some d =>
      have hd : hshake d = false := h2 d (List.mem_cons_self _ _)
      simp only [List.cons_append, sslGetRequest, hd, if_false, Bool.false_eq_true]
      exact ih (fun hmem => h1 (List.mem_cons_of_mem _ hmem))
        (fun x hx => h2 x (List.mem_cons_of_mem _ hx)) rest

/-- The secure accept loop returns a connection only when its handshake
succeeded. -/
lemma sslGetRequest_sound (hshake : Nat → Bool) :
    ∀ (raws : List (Option Nat)) (c : Nat),
      sslGetRequest hshake raws = some c → hshake c = true := by
  intro raws
  induction raws with
  | nil => intro c h; simp [sslGetRequest] at h
  | cons o tl ih =>
    intro c h
    cases o with
    | none => simp [sslGetRequest] at h
    | some d =>
      by_cases hd : hshake d = true
      · simp [sslGetRequest, hd] at h
        exact h ▸ hd
      · simp [sslGetRequest, hd] at h
        exact ih c h

/-- Claim C8: `getRequest` of the secure variant discards every raw
connection whose TLS handshake fails and retries with the next raw accept;
it returns the first connection whose handshake succeeds, returns `none`
exactly when the raw accept itself fails, and never surfaces a handshake
failure to the dispatch loop. -/
theorem sslGetRequest_handshake_retry (hshake : Nat → Bool)
    (pre : List (Option Nat))
    (hpre1 : (none : Option Nat) ∉ pre)
    (hpre2 : ∀ d, some d ∈ pre → hshake d = false) :
    (∀ (c : Nat) (rest : List (Option Nat)), hshake c = true →
        sslGetRequest hshake (pre ++ some c :: rest) = some c)
    ∧ (∀ rest : List (Option Nat), sslGetRequest hshake (pre ++ none :: rest) = none)
    ∧ (∀ (raws : List (Option Nat)) (c : Nat),
        sslGetRequest hshake raws = some c → hshake c = true) := by
  refine ⟨?_, ?_, fun raws c h => sslGetRequest_sound hshake raws c h⟩
  · intro c rest hc
    rw [sslGetRequest_skip hshake pre hpre1 hpre2]
    simp [sslGetRequest, hc]
  · intro rest
    rw [sslGetRequest_skip hshake pre hpre1 hpre2]
    rfl

/-- Witness for C8: the three-connection scenario of the spec: the first two raw
connections fail the handshake, the third succeeds, and `getRequest`
returns exactly the third. -/
theorem sslGetRequest_handshake_retry_witness :
    sslGetRequest (fun d => d == 2) [some 0, some 1, some 2] = some 2 := by
  have h := sslGetRequest_handshake_retry (fun d => d == 2) [some 0, some 1]
    (by decide)
    (by intro d hd; simp at hd; rcases hd with rfl | rfl <;> rfl)
  exact h.1 2 [] rfl

/-- An action with occurrence count zero is not in the trace. -/
lemma not_mem_of_countA_eq_zero {a : Act} :
    ∀ {tr : List Act}, countA a tr = 0 → a ∉ tr := by
  intro tr
  induction tr with
  | nil => intro _ h; simp at h
  | cons b tl ih =>
    intro h hmem
    simp only [countA, Nat.add_eq_zero] at h
    rcases List.mem_cons.1 hmem with heq | hmem2
    · subst heq
      simp at h
    · exact ih h.2 hmem2

/-- A connection that the admission hook rejects is never spawned as a task
anywhere in the dispatch loop. -/
lemma countA_spawnTask_zero (H : Hooks) (c : Nat)
    (hv : H.verifyRequest c = false) :
    ∀ (accepts : List (Option Nat)) (n : Nat),
      countA (Act.spawnTask c) (dispatchLoop H n accepts) = 0 := by
  intro accepts
  induction accepts with
  | nil => intro n; rfl
  | cons o rest ih =>
    intro n
    cases o with
    | none => rfl
    | some d =>
      by_cases hdc : d = c
      · subst hdc
        by_cases hs : H.serviceActions n <;>
          simp [dispatchLoop, hv, hs, countA_append, countA, ih]
      · by_cases hvd : H.verifyRequest d <;> by_cases hs : H.serviceActions n <;>
          simp [dispatchLoop, hvd, hs, countA_append, countA, hdc, ih]

/-- A connection that never appears among the accept results is never shut
down or closed by the dispatch loop. -/
lemma countA_cleanup_zero (H : Hooks) (c : Nat) :
    ∀ (accepts : List (Option Nat)) (n : Nat), some c ∉ accepts →
      countA (Act.closeReq c) (dispatchLoop H n accepts) = 0
      ∧ countA (Act.shutdownReq c) (dispatchLoop H n accepts) = 0 := by
  intro accepts
  induction accepts with
  | nil => intro n _; exact ⟨rfl, rfl⟩
  | cons o rest ih =>
    intro n hmem
    cases o with
    | none => exact ⟨rfl, rfl⟩
    | some d =>
      have hdc : d ≠ c := fun h => hmem (by simp [h])
      have hrest : some c ∉ rest := fun h => hmem (List.mem_cons_of_mem _ h)
      obtain ⟨ih1, ih2⟩ := ih (n + 1) hrest
      by_cases hvd : H.verifyRequest d <;> by_cases hs : H.serviceActions n <;>
        simp [dispatchLoop, hvd, hs, countA_append, countA, hdc, ih1, ih2]

/-- Running the dispatch loop through a block of accepted connections that
does not contain `none` produces a prefix trace followed by the loop over
the remaining accepts; the prefix never shuts down or closes a connection
that is not in the block. -/
lemma dispatchLoop_append_pre (H : Hooks)
    (hsvc : ∀ k, H.serviceActions k = true) :
    ∀ (pre : List (Option Nat)) (n : Nat), (none : Option Nat) ∉ pre →
      ∃ pfx, (∀ rest, dispatchLoop H n (pre ++ rest) =
            pfx ++ dispatchLoop H (n + pre.length) rest)
        ∧ ∀ c, some c ∉ pre →
            countA (Act.closeReq c) pfx = 0 ∧ countA (Act.shutdownReq c) pfx = 0 := by
  intro pre
  induction pre with
  | nil =>
    intro n _
    exact ⟨[], fun rest => by simp, fun c _ => ⟨rfl, rfl⟩⟩
  | cons o tl ih =>
    intro n h1
    cases o with
    | none => exact absurd (List.mem_cons_self _ _) h1
    | some d =>
      obtain ⟨pfx, hpfx, hcnt⟩ := ih (n + 1) (fun hm => h1 (List.mem_cons_of_mem _ hm))
      refine ⟨[Act.acceptCall, Act.verifyReq d] ++
        (if H.verifyRequest d then [Act.spawnTask d]
         else [Act.shutdownReq d, Act.closeReq d]) ++ pfx, ?_, ?_⟩
      · intro rest
        have hunfold : dispatchLoop H n ((some d :: tl) ++ rest)
            = [Act.acceptCall, Act.verifyReq d] ++
              (if H.verifyRequest d then [Act.spawnTask d]
               else [Act.shutdownReq d, Act.closeReq d]) ++
              dispatchLoop H (n + 1) (tl ++ rest) := by
          simp [dispatchLoop, hsvc n]
        have harith : n + 1 + tl.length = n + (some d :: tl).length := by
          simp only [List.length_cons]
          omega
        rw [hunfold, hpfx rest, harith]
        simp [List.append_assoc]
      · intro c hc
        have hdc : d ≠ c := fun h => hc (by simp [h])
        have htl : some c ∉ tl := fun hm => hc (List.mem_cons_of_mem _ hm)
        obtain ⟨z1, z2⟩ := hcnt c htl
        by_cases hvd : H.verifyRequest d <;>
          simp [hvd, countA_append, countA, hdc, z1, z2]

/-- Claim C7: a connection rejected by `verifyRequest` is never spawned as
a task, is shut down and then closed inline exactly once, and the loop
continues with the remaining accepts. -/
theorem reject_inline_cleanup (H : Hooks) (pre post : List (Option Nat)) (c : Nat)
    (hv : H.verifyRequest c = false)
    (hsvc : ∀ k, H.serviceActions k = true)
    (hpre : (none : Option Nat) ∉ pre)
    (hc1 : some c ∉ pre) (hc2 : some c ∉ post) :
    Act.spawnTask c ∉ dispatchLoop H 0 (pre ++ some c :: post)
    ∧ countA (Act.shutdownReq c) (dispatchLoop H 0 (pre ++ some c :: post)) = 1
    ∧ countA (Act.closeReq c) (dispatchLoop H 0 (pre ++ some c :: post)) = 1
    ∧ ∃ pfx, dispatchLoop H 0 (pre ++ some c :: post)
        = pfx ++ [Act.acceptCall, Act.verifyReq c, Act.shutdownReq c, Act.closeReq c]
            ++ dispatchLoop H (pre.length + 1) post := by
  obtain ⟨pfx, hpfx, hcnt⟩ := dispatchLoop_append_pre H hsvc pre 0 hpre
  have hstep : dispatchLoop H 0 (pre ++ some c :: post)
      = pfx ++ [Act.acceptCall, Act.verifyReq c, Act.shutdownReq c, Act.closeReq c]
          ++ dispatchLoop H (pre.length + 1) post := by
    rw [hpfx (some c :: post)]
    simp [dispatchLoop, hv, hsvc, List.append_assoc]
  obtain ⟨hpc, hps⟩ := hcnt c hc1
  obtain ⟨hqc, hqs⟩ := countA_cleanup_zero H c post (pre.length + 1) hc2
  refine ⟨not_mem_of_countA_eq_zero
      (countA_spawnTask_zero H c hv (pre ++ some c :: post) 0), ?_, ?_, ⟨pfx, hstep⟩⟩
  · rw [hstep]
    simp [countA_append, countA, hps, hqs]
  · rw [hstep]
    simp [countA_append, countA, hpc, hqc]

/-- Hooks whose admission check rejects every connection. -/
def rejectHooks : Hooks :=
  { defaultHooks with verifyRequest := fun _ => false }

/-- Witness for C7: a single rejected connection is closed exactly once. -/
theorem reject_inline_cleanup_witness :
    countA (Act.closeReq 0) (dispatchLoop rejectHooks 0 ([] ++ some 0 :: [])) = 1 :=
  (reject_inline_cleanup rejectHooks [] [] 0 rfl (fun _ => rfl)
    (by simp) (by simp) (by simp)).2.2.1

/-- Counterexample to claim C2: with the default hooks (whose
`processRequest` does nothing), a connection that is accepted, admitted and
spawned, and whose processing completes normally, is never closed: neither
the dispatch loop nor the connection task performs any `closeRequest` on
it, so the close count is 0, not 1. -/
theorem close_missing_on_normal_path :
    Act.spawnTask 0 ∈ serveForeverLoop defaultHooks [some 0, none]
    ∧ countA (Act.closeReq 0)
        (serveForeverLoop defaultHooks [some 0, none] ++ (handleRequest defaultHooks 0).1) = 0
    ∧ ¬ countA (Act.closeReq 0)
        (serveForeverLoop defaultHooks [some 0, none] ++ (handleRequest defaultHooks 0).1) = 1 := by
  refine ⟨?_, ?_, ?_⟩ <;> decide

/-- Claim C2 (amended): the framework closes a connection exactly once on
the admission-rejection path, the handler-failure path and the cancellation
path; on normal completion of `processRequest` it performs no close itself —
closing is delegated to `processRequest` (documented by the source comment
"close request"), so provided `processRequest` closes the connection
exactly once when it returns normally and not at all when it raises, every
path closes the connection exactly once. -/
theorem closeRequest_once_per_path (H : Hooks) (c : Nat)
    (hok : (H.processRequest c).2 = none →
      countA (Act.closeReq c) (H.processRequest c).1 = 1)
    (hraise : ∀ e, (H.processRequest c).2 = some e →
      countA (Act.closeReq c) (H.processRequest c).1 = 0) :
    countA (Act.closeReq c) ((handleRequest H c).1) = 1
    ∧ (H.verifyRequest c = false →
        ∀ n, countA (Act.closeReq c) (dispatchLoop H n [some c]) = 1) := by
  constructor
  · rcases hpr : H.processRequest c with ⟨tr, out⟩
    cases out with
    | none =>
      have h1 : countA (Act.closeReq c) tr = 1 := by
        have h2 := hok (by rw [hpr])
        rwa [hpr] at h2
      simp [handleRequest, hpr, h1]
    | some e =>
      have h0 : countA (Act.closeReq c) tr = 0 := by
        have h2 := hraise e (by rw [hpr])
        rwa [hpr] at h2
      cases e <;> simp [handleRequest, hpr, countA_append, countA, h0]
  · intro hv n
    by_cases hs : H.serviceActions n <;>
      simp [dispatchLoop, hv, hs, countA_append, countA]

/-- Witness for the amended C2: a `processRequest` conforming to its
documented contract closes the connection exactly once on the normal
path. -/
theorem closeRequest_once_per_path_witness :
    countA (Act.closeReq 0) ((handleRequest conformHooks 0).1) = 1 :=
  (closeRequest_once_per_path conformHooks 0 (fun _ => by decide)
    (fun e he => by simp [conformHooks, defaultHooks] at he)).1
